import Mathlib

/-!
Verification of the NoteCast backend PDF-to-podcast converter
(`pdf_podcast_converter.py`) against its natural-language specification.

The Python module is shallowly embedded: text is `List Char`, Python
`str.split()` / `str.strip()` / `str.replace` / `re.sub` are modelled by
executable Lean functions below, file-system effects are explicit state
passing over an association list from file names to byte lists, and the
three remote collaborators (the Groq text-generation endpoint, the Edge
TTS voice service and the ffmpeg process) are modelled by outcome
parameters, since the spec treats them as external collaborators.
-/

set_option maxHeartbeats 1000000
set_option maxRecDepth 100000

/-! ## Python string primitives -/

/-- Model of Python `str.split()` (split on runs of whitespace, no empty
words), written with an accumulator so that it is structural recursion. -/
def pysplitAux : List Char → List Char → List (List Char)
  | [], acc => if acc.isEmpty then [] else [acc.reverse]
  | c :: cs, acc =>
    if c.isWhitespace then
      if acc.isEmpty then pysplitAux cs [] else acc.reverse :: pysplitAux cs []
    else pysplitAux cs (c :: acc)

/-- Python `text.split()`: the whitespace-delimited words of `text`. -/
def pysplit (cs : List Char) : List (List Char) := pysplitAux cs []

/-- Python `str.strip()`: remove leading and trailing whitespace. -/
def pystrip (cs : List Char) : List Char :=
  ((cs.dropWhile Char.isWhitespace).reverse.dropWhile Char.isWhitespace).reverse

/-- Python `sep.join(words)` for a one-character separator `sep`. -/
def joinWith (sep : Char) : List (List Char) → List Char
  | [] => []
  | [w] => w
  | w :: ws => w ++ sep :: joinWith sep ws

/-- Python `script.split(newline)`: split at each newline, keeping empty
lines (accumulator form, structural recursion). -/
def splitLinesAux : List Char → List Char → List (List Char)
  | [], acc => [acc.reverse]
  | c :: cs, acc =>
    if c = '\n' then acc.reverse :: splitLinesAux cs [] else splitLinesAux cs (c :: acc)

/-- Python `s.split` at newlines. -/
def splitLines (cs : List Char) : List (List Char) := splitLinesAux cs []

/-- Does the character list `s` start with the pattern `pat`? -/
def startsWithL : List Char → List Char → Bool
  | _, [] => true
  | [], _ :: _ => false
  | c :: cs, p :: ps => c == p && startsWithL cs ps

/-- Fuel-driven core of Python `str.replace`: replace each (leftmost,
non-overlapping) occurrence of `pat` by `rep`.  The fuel is the length of
the scanned list, so the recursion is structural and kernel-reducible. -/
def replaceFuel (pat rep : List Char) : Nat → List Char → List Char
  | 0, s => s
  | _ + 1, [] => []
  | fuel + 1, c :: cs =>
    if startsWithL (c :: cs) pat && !pat.isEmpty then
      rep ++ replaceFuel pat rep fuel ((c :: cs).drop pat.length)
    else c :: replaceFuel pat rep fuel cs

/-- Python `s.replace(pat, rep)` (the converter never calls it with an
empty pattern). -/
def pyreplace (s pat rep : List Char) : List Char := replaceFuel pat rep s.length s

/-- Fuel-driven core of `re.sub` for a pattern of the shape
`open [^close]* close` (used for `(...)`, `[...]` and `<...>` stage
directions): on an opening character, if a closing character occurs
later, the whole span up to and including the first closing character is
removed and scanning resumes after it; otherwise the opening character
is kept. -/
def stripSpans (o c : Char) : Nat → List Char → List Char
  | 0, s => s
  | _ + 1, [] => []
  | fuel + 1, ch :: rest =>
    if ch = o then
      match rest.findIdx? (fun x => x = c) with
      | some i => stripSpans o c fuel (rest.drop (i + 1))
      | none => ch :: stripSpans o c fuel rest
    else ch :: stripSpans o c fuel rest

/-- `re.sub` of an `o ... c` delimited span by the empty string. -/
def pysub (o c : Char) (s : List Char) : List Char := stripSpans o c s.length s

/-! ## Chunker (`chunk_text`, source lines 40-60) -/

/-- The word loop of `chunk_text`: `cur` is `current_chunk`, `len` is
`current_length`; a word of length `L` is charged `L + 1` characters, and
the current chunk is closed when admitting the word would exceed
`max_chars` and the current chunk is non-empty. -/
def chunk_loop (max_chars : Nat) : List (List Char) → List (List Char) → Nat → List (List (List Char))
  | [], cur, _ => if cur.isEmpty then [] else [cur]
  | w :: rest, cur, len =>
    let wlen := w.length + 1
    if len + wlen > max_chars && !cur.isEmpty then
      cur :: chunk_loop max_chars rest [w] wlen
    else
      chunk_loop max_chars rest (cur ++ [w]) (len + wlen)

/-- `chunk_text(text, max_chars)` (source lines 40-60): split into
whitespace words, greedily group them, and join each group with single
spaces. -/
def chunk_text (text : List Char) (max_chars : Nat) : List (List Char) :=
  (chunk_loop max_chars (pysplit text) [] 0).map (joinWith ' ')

/-! ### Chunker lemmas -/

theorem pysplitAux_ne_nil (cs : List Char) :
    ∀ acc, ∀ w ∈ pysplitAux cs acc, w ≠ [] := by
  induction cs with
  | nil =>
    intro acc w hw
    simp only [pysplitAux] at hw
    split at hw
    · simp at hw
    · rename_i h
      simp only [List.mem_singleton] at hw
      subst hw
      simpa [List.isEmpty_iff] using h
  | cons c cs ih =>
    intro acc w hw
    simp only [pysplitAux] at hw
    split at hw
    · split at hw
      · exact ih [] w hw
      · rename_i h
        rcases List.mem_cons.1 hw with h' | h'
        · subst h'
          simpa [List.isEmpty_iff] using h
        · exact ih [] w h'
    · exact ih (c :: acc) w hw

theorem pysplitAux_no_ws (cs : List Char) :
    ∀ acc, (∀ a ∈ acc, ¬ a.isWhitespace) →
      ∀ w ∈ pysplitAux cs acc, ∀ ch ∈ w, ¬ ch.isWhitespace := by
  induction cs with
  | nil =>
    intro acc hacc w hw
    simp only [pysplitAux] at hw
    split at hw
    · simp at hw
    · simp only [List.mem_singleton] at hw
      subst hw
      intro ch hch
      exact hacc ch (List.mem_reverse.1 hch)
  | cons c cs ih =>
    intro acc hacc w hw
    simp only [pysplitAux] at hw
    split at hw
    · rename_i hwsp
      split at hw
      · exact ih [] (by simp) w hw
      · rcases List.mem_cons.1 hw with h' | h'
        · subst h'
          intro ch hch
          exact hacc ch (List.mem_reverse.1 hch)
        · exact ih [] (by simp) w h'
    · rename_i hwsp
      refine ih (c :: acc) ?_ w hw
      intro a ha
      rcases List.mem_cons.1 ha with h' | h'
      · subst h'; exact hwsp
      · exact hacc a h'

theorem pysplit_ne_nil (cs : List Char) : ∀ w ∈ pysplit cs, w ≠ [] :=
  pysplitAux_ne_nil cs []

theorem pysplit_no_ws (cs : List Char) :
    ∀ w ∈ pysplit cs, ∀ ch ∈ w, ¬ ch.isWhitespace :=
  pysplitAux_no_ws cs [] (by simp)

theorem pysplitAux_word (w : List Char) (hw : ∀ ch ∈ w, ¬ ch.isWhitespace) :
    ∀ rest acc, pysplitAux (w ++ rest) acc = pysplitAux rest (w.reverse ++ acc) := by
  induction w with
  | nil => intro rest acc; simp
  | cons c cs ih =>
    intro rest acc
    have hc : ¬ c.isWhitespace := hw c (by simp)
    have hcs : ∀ ch ∈ cs, ¬ ch.isWhitespace := fun ch hch => hw ch (by simp [hch])
    simp only [List.cons_append, pysplitAux, if_neg hc]
    rw [List.append_eq, ih hcs rest (c :: acc)]
    simp

theorem pysplitAux_space (rest : List Char) (acc : List Char) (hacc : ¬ acc.isEmpty) :
    pysplitAux (' ' :: rest) acc = acc.reverse :: pysplitAux rest [] := by
  simp only [pysplitAux]
  rw [if_pos (by decide), if_neg hacc]

theorem pysplit_joinWith (ws : List (List Char))
    (hne : ∀ w ∈ ws, w ≠ []) (hws : ∀ w ∈ ws, ∀ ch ∈ w, ¬ ch.isWhitespace) :
    pysplit (joinWith ' ' ws) = ws := by
  induction ws with
  | nil => rfl
  | cons w ws ih =>
    have hwne : w ≠ [] := hne w (by simp)
    have hwws : ∀ ch ∈ w, ¬ ch.isWhitespace := hws w (by simp)
    cases ws with
    | nil =>
      show pysplitAux (joinWith ' ' [w]) [] = [w]
      have : joinWith ' ' [w] = w ++ [] := by simp [joinWith]
      rw [this, pysplitAux_word w hwws [] []]
      simp [pysplitAux, hwne]
    | cons w2 ws2 =>
      have hj : joinWith ' ' (w :: w2 :: ws2) = w ++ (' ' :: joinWith ' ' (w2 :: ws2)) := rfl
      show pysplitAux (joinWith ' ' (w :: w2 :: ws2)) [] = w :: w2 :: ws2
      rw [hj, pysplitAux_word w hwws _ [],
        pysplitAux_space _ _ (by simp [List.isEmpty_iff, hwne])]
      simp only [List.append_nil, List.reverse_reverse]
      rw [show pysplitAux (joinWith ' ' (w2 :: ws2)) [] = pysplit (joinWith ' ' (w2 :: ws2)) from rfl]
      rw [ih (fun x hx => hne x (by simp [hx])) (fun x hx => hws x (by simp [hx]))]

theorem joinWith_append (sep : Char) (c ws : List (List Char))
    (hc : c ≠ []) (hws : ws ≠ []) :
    joinWith sep (c ++ ws) = joinWith sep c ++ sep :: joinWith sep ws := by
  induction c with
  | nil => exact absurd rfl hc
  | cons x c' ih =>
    cases c' with
    | nil =>
      cases ws with
      | nil => exact absurd rfl hws
      | cons y ys => rfl
    | cons x2 c2 =>
      have h1 : joinWith sep ((x :: x2 :: c2) ++ ws) =
          x ++ sep :: joinWith sep ((x2 :: c2) ++ ws) := by
        cases ws with
        | nil => exact absurd rfl hws
        | cons y ys => rfl
      rw [h1, ih (by simp),
        show joinWith sep (x :: x2 :: c2) = x ++ sep :: joinWith sep (x2 :: c2) from rfl]
      simp [List.append_assoc]

theorem joinWith_flatten (P : List (List (List Char))) (hP : ∀ c ∈ P, c ≠ []) :
    joinWith ' ' (P.map (joinWith ' ')) = joinWith ' ' P.flatten := by
  induction P with
  | nil => rfl
  | cons c P' ih =>
    cases P' with
    | nil => simp [joinWith]
    | cons c2 P2 =>
      have hc : c ≠ [] := hP c (by simp)
      have hc2 : c2 ≠ [] := hP c2 (by simp)
      have hjoin_ne : (c2 :: P2).flatten ≠ [] := by
        cases c2 with
        | nil => exact absurd rfl hc2
        | cons z zs => simp
      have h1 : joinWith ' ' ((c :: c2 :: P2).map (joinWith ' ')) =
          joinWith ' ' c ++ ' ' :: joinWith ' ' ((c2 :: P2).map (joinWith ' ')) := rfl
      rw [h1, ih (fun x hx => hP x (by simp [hx]))]
      rw [show (c :: c2 :: P2).flatten = c ++ (c2 :: P2).flatten from rfl]
      rw [joinWith_append ' ' c (c2 :: P2).flatten hc hjoin_ne]

theorem chunk_loop_join (m : Nat) (ws : List (List Char)) :
    ∀ cur len, (chunk_loop m ws cur len).flatten = cur ++ ws := by
  induction ws with
  | nil =>
    intro cur len
    simp only [chunk_loop]
    split
    · rename_i h
      simp [List.isEmpty_iff.1 h]
    · simp
  | cons w rest ih =>
    intro cur len
    simp only [chunk_loop]
    split
    · simp [ih]
    · simp [ih]

theorem chunk_loop_ne_nil (m : Nat) (ws : List (List Char)) :
    ∀ cur len, ∀ c ∈ chunk_loop m ws cur len, c ≠ [] := by
  induction ws with
  | nil =>
    intro cur len c hc
    simp only [chunk_loop] at hc
    split at hc
    · simp at hc
    · rename_i h
      simp only [List.mem_singleton] at hc
      subst hc
      simpa [List.isEmpty_iff] using h
  | cons w rest ih =>
    intro cur len c hc
    simp only [chunk_loop] at hc
    split at hc
    · rename_i h
      rcases List.mem_cons.1 hc with h' | h'
      · subst h'
        cases c with
        | nil => simp at h
        | cons z zs => simp
      · exact ih [w] (w.length + 1) c h'
    · exact ih (cur ++ [w]) _ c hc

theorem joinWith_ne_nil (c : List (List Char)) (hc : c ≠ [])
    (hw : ∀ w ∈ c, w ≠ []) : joinWith ' ' c ≠ [] := by
  cases c with
  | nil => exact absurd rfl hc
  | cons w ws =>
    cases ws with
    | nil => simpa [joinWith] using hw w (by simp)
    | cons w2 ws2 =>
      have : joinWith ' ' (w :: w2 :: ws2) = w ++ ' ' :: joinWith ' ' (w2 :: ws2) := rfl
      rw [this]
      simp

theorem mem_chunk_words (m : Nat) (ws cur : List (List Char)) (len : Nat)
    (c : List (List Char)) (hc : c ∈ chunk_loop m ws cur len) :
    ∀ w ∈ c, w ∈ cur ++ ws := by
  intro w hw
  have : w ∈ (chunk_loop m ws cur len).flatten := List.mem_flatten.2 ⟨c, hc, hw⟩
  rwa [chunk_loop_join] at this

/-- The character cost of a chunk as accounted by `chunk_text`:
each word is charged its length plus one separator. -/
def chunkWeight (c : List (List Char)) : Nat := (c.map (fun w => w.length + 1)).sum

theorem joinWith_length (c : List (List Char)) (hc : c ≠ []) :
    (joinWith ' ' c).length + 1 = chunkWeight c := by
  induction c with
  | nil => exact absurd rfl hc
  | cons w ws ih =>
    cases ws with
    | nil => simp [joinWith, chunkWeight]
    | cons w2 ws2 =>
      have h1 : joinWith ' ' (w :: w2 :: ws2) = w ++ ' ' :: joinWith ' ' (w2 :: ws2) := rfl
      have h2 : chunkWeight (w :: w2 :: ws2) = (w.length + 1) + chunkWeight (w2 :: ws2) := by
        simp [chunkWeight]
      rw [h1, h2]
      have := ih (by simp)
      simp only [List.length_append, List.length_cons]
      omega

theorem chunk_loop_weight (m : Nat) (ws : List (List Char)) :
    ∀ cur len, len = chunkWeight cur → (2 ≤ cur.length → chunkWeight cur ≤ m) →
      ∀ c ∈ chunk_loop m ws cur len, 2 ≤ c.length → chunkWeight c ≤ m := by
  induction ws with
  | nil =>
    intro cur len h1 h2 c hc hlen
    simp only [chunk_loop] at hc
    split at hc
    · simp at hc
    · simp only [List.mem_singleton] at hc
      subst hc
      exact h2 hlen
  | cons w rest ih =>
    intro cur len h1 h2 c hc hlen
    simp only [chunk_loop] at hc
    split at hc
    · rcases List.mem_cons.1 hc with h' | h'
      · subst h'
        exact h2 hlen
      · refine ih [w] (w.length + 1) (by simp [chunkWeight]) (by simp) c h' hlen
    · rename_i hcond
      simp only [Bool.and_eq_true, decide_eq_true_eq, Bool.not_eq_true'] at hcond
      have hw : chunkWeight (cur ++ [w]) = len + (w.length + 1) := by
        simp [chunkWeight, h1]
      refine ih (cur ++ [w]) (len + (w.length + 1)) hw.symm ?_ c hc hlen
      intro h2len
      rw [hw]
      cases cur with
      | nil => simp at h2len
      | cons q qs =>
        have hng : ¬ (len + (w.length + 1) > m) := fun hgt => hcond ⟨hgt, by simp⟩
        omega

theorem chunk_text_words_core (text : List Char) (m : Nat) :
    pysplit (joinWith ' ' (chunk_text text m)) = pysplit text := by
  have hP : ∀ c ∈ chunk_loop m (pysplit text) [] 0, c ≠ [] :=
    chunk_loop_ne_nil m (pysplit text) [] 0
  have hflat : (chunk_loop m (pysplit text) [] 0).flatten = pysplit text := by
    simpa using chunk_loop_join m (pysplit text) [] 0
  rw [chunk_text, joinWith_flatten _ hP, hflat]
  exact pysplit_joinWith _ (pysplit_ne_nil text) (pysplit_no_ws text)

/-- C7: for every input text and `max_chars ≥ 1`, joining the chunks
returned by `chunk_text` with single spaces and splitting on whitespace
reproduces the original whitespace-delimited words in order; no returned
chunk is empty (and if the input has no words the result is the empty
sequence); and every chunk is a space-join of a contiguous block of whole
original words, so no chunk boundary splits a word. -/
theorem chunk_text_reconstructs_words (text : List Char) (m : Nat) (_hm : 1 ≤ m) :
    pysplit (joinWith ' ' (chunk_text text m)) = pysplit text
    ∧ (∀ s ∈ chunk_text text m, s ≠ [])
    ∧ (pysplit text = [] → chunk_text text m = [])
    ∧ ∃ P : List (List (List Char)), chunk_text text m = P.map (joinWith ' ')
        ∧ P.flatten = pysplit text ∧ ∀ c ∈ P, c ≠ [] := by
  refine ⟨chunk_text_words_core text m, ?_, ?_, ?_⟩
  · intro s hs
    rcases List.mem_map.1 hs with ⟨c, hc, rfl⟩
    refine joinWith_ne_nil c (chunk_loop_ne_nil m (pysplit text) [] 0 c hc) ?_
    intro w hw
    have hmem : w ∈ ([] : List (List Char)) ++ pysplit text :=
      mem_chunk_words m (pysplit text) [] 0 c hc w hw
    exact pysplit_ne_nil text w (by simpa using hmem)
  · intro h
    simp [chunk_text, h, chunk_loop]
  · refine ⟨chunk_loop m (pysplit text) [] 0, rfl, ?_, chunk_loop_ne_nil m (pysplit text) [] 0⟩
    simpa using chunk_loop_join m (pysplit text) [] 0

/-- Witness for C7 at the concrete input `"hello world"`, `max_chars = 3`. -/
theorem chunk_text_reconstructs_words_witness :
    pysplit (joinWith ' ' (chunk_text "hello world".data 3)) = pysplit "hello world".data
    ∧ (∀ s ∈ chunk_text "hello world".data 3, s ≠ [])
    ∧ (pysplit "hello world".data = [] → chunk_text "hello world".data 3 = [])
    ∧ ∃ P : List (List (List Char)), chunk_text "hello world".data 3 = P.map (joinWith ' ')
        ∧ P.flatten = pysplit "hello world".data ∧ ∀ c ∈ P, c ≠ [] :=
  chunk_text_reconstructs_words "hello world".data 3 (by decide)

/-- C10: every chunk produced by `chunk_text` that contains at least two
words has string length at most `max_chars - 1`, because the greedy
admission test charges each word its length plus one separator. -/
theorem chunk_text_multiword_bound (text : List Char) (m : Nat) (s : List Char)
    (hs : s ∈ chunk_text text m) (h2 : 2 ≤ (pysplit s).length) :
    s.length ≤ m - 1 := by
  rcases List.mem_map.1 hs with ⟨c, hc, rfl⟩
  have hwords : ∀ w ∈ c, w ∈ pysplit text := by
    intro w hw
    simpa using mem_chunk_words m (pysplit text) [] 0 c hc w hw
  have hne : ∀ w ∈ c, w ≠ [] := fun w hw => pysplit_ne_nil text w (hwords w hw)
  have hws : ∀ w ∈ c, ∀ ch ∈ w, ¬ ch.isWhitespace :=
    fun w hw => pysplit_no_ws text w (hwords w hw)
  have hback : pysplit (joinWith ' ' c) = c := pysplit_joinWith c hne hws
  rw [hback] at h2
  have hweight : chunkWeight c ≤ m := by
    refine chunk_loop_weight m (pysplit text) [] 0 rfl (by simp) c hc h2
  have hlen : (joinWith ' ' c).length + 1 = chunkWeight c :=
    joinWith_length c (by rintro rfl; simp at h2)
  omega

/-- Witness for C10 at `"ab cd ef"`, `max_chars = 6`: the two-word chunk
`"ab cd"` has length `5 = 6 - 1`. -/
theorem chunk_text_multiword_bound_witness :
    "ab cd".data ∈ chunk_text "ab cd ef".data 6
    ∧ 2 ≤ (pysplit "ab cd".data).length
    ∧ "ab cd".data.length ≤ 6 - 1 :=
  ⟨by decide, by decide,
    chunk_text_multiword_bound "ab cd ef".data 6 "ab cd".data (by decide) (by decide)⟩

/-! ## Preferences (spec section 3) and prompt builder (`_build_prompt`,
source lines 63-141) -/

/-- Recognized `tone` option values. -/
inductive Tone where
  | casual
  | conversational
  | professional
deriving DecidableEq

/-- Recognized `length` option values. -/
inductive PLength where
  | short
  | medium
  | long
deriving DecidableEq

/-- Recognized `depth` option values. -/
inductive Depth where
  | overview
  | balanced
  | deepDive
deriving DecidableEq

/-- The preferences dictionary: each recognized key either absent or set
to one of its recognized values (spec section 3). -/
structure Preferences where
  tone : Option Tone
  length : Option PLength
  depth : Option Depth
  humor : Option Bool
deriving DecidableEq

/-- The key string of a tone, as interpolated into the prompt. -/
def Tone.str : Tone → String
  | .casual => "casual"
  | .conversational => "conversational"
  | .professional => "professional"

/-- `tone_styles[tone]['host']`. -/
def tone_host : Tone → String
  | .casual => "friendly, enthusiastic, uses casual language like \"you know\", \"pretty cool\""
  | .conversational => "engaging and curious, asks thoughtful questions"
  | .professional => "well-prepared, asks insightful questions"

/-- `tone_styles[tone]['expert']`. -/
def tone_expert : Tone → String
  | .casual => "knowledgeable but relaxed, explains things like talking to a friend"
  | .conversational => "clear and articulate, good at explaining concepts"
  | .professional => "authoritative and precise, provides detailed explanations"

/-- `tone_styles[tone]['style']`. -/
def tone_style : Tone → String
  | .casual => "Keep it light and fun, like friends chatting over coffee"
  | .conversational => "Natural conversation with good flow"
  | .professional => "Professional but accessible, like a quality educational podcast"

/-- `length_guides[length]`. -/
def length_guide : PLength → String
  | .short => "4-6 quick exchanges, hit the main points"
  | .medium => "8-10 exchanges, cover key concepts with some depth"
  | .long => "12-15 exchanges, thorough exploration with examples"

/-- `depth_guides[depth]`. -/
def depth_guide : Depth → String
  | .overview => "Focus on high-level takeaways and main ideas"
  | .balanced => "Balance overview with some detailed explanations and examples"
  | .deepDive => "Provide thorough explanations, examples, and explore nuances"

/-- The humor instruction appended when `humor` is enabled (default). -/
def humor_instruction (p : Preferences) : String :=
  if p.humor.getD true then
    "\n- Add occasional light humor, relatable analogies, and personality\n- Make it engaging and enjoyable, not dry\n- CRITICAL: DO NOT WRITE STAGE DIRECTIONS LIKE (LAUGHS), [CHUCKLES], or [MUSIC]—only write dialogue."
  else ""

/-- The continuity instruction of `_build_prompt` (source lines 107-116). -/
def continuity_instruction (section_num total_sections : Nat) : String :=
  if total_sections > 1 then
    if section_num = 1 then
      "Since this is the first section, the HOST should open the podcast with a warm welcome and an overview."
    else if section_num < total_sections then
      "This is a middle section. The conversation must **START IN MEDIA RES (mid-conversation)**. The HOST should transition smoothly from the previous segment\x27s topic to introduce this new content."
    else
      "This is the final section. The conversation must **START IN MEDIA RES**. The final exchange must be a clear wrap-up and conclusion, with the HOST thanking the EXPERT."
  else ""

/-- The part of the prompt f-string before the continuity slot. -/
def prompt_head (p : Preferences) : String :=
  "You are a podcast script writer. Create a " ++ (p.tone.getD Tone.conversational).str
    ++ " conversation between HOST and EXPERT.\n        \n"

/-- The part of the prompt f-string after the continuity slot. -/
def prompt_tail (text_sample : String) (p : Preferences) (section_num total_sections : Nat) : String :=
  let tone := p.tone.getD Tone.conversational
  " \n\nHOST personality: " ++ tone_host tone
    ++ "\nEXPERT personality: " ++ tone_expert tone
    ++ "\n\nStyle: " ++ tone_style tone
    ++ "\n\nLength: " ++ length_guide (p.length.getD PLength.medium)
    ++ "\nDepth: " ++ depth_guide (p.depth.getD Depth.balanced)
    ++ humor_instruction p
    ++ "\n\nSTRICT FORMAT - Each line must start with HOST: or EXPERT:\n\nExample (for non-final section):\nHOST: That connects perfectly to our next topic, the rise of quantum computing.\nEXPERT: Indeed, that\x27s where the real complexity begins.\n\nContent to discuss (Section "
    ++ toString section_num ++ " of " ++ toString total_sections ++ "):\n"
    ++ text_sample
    ++ "\n\nCreate the podcast dialogue following the format above:"

/-- `_build_prompt(text_sample, preferences, section_num, total_sections)`
(source lines 63-141): the prompt f-string, i.e. the text before the
continuity slot, the continuity instruction, and the rest. -/
def build_prompt (text_sample : String) (p : Preferences) (section_num total_sections : Nat) : String :=
  prompt_head p ++ (continuity_instruction section_num total_sections
    ++ prompt_tail text_sample p section_num total_sections)

/-- `big` contains `small` as a contiguous substring. -/
def strContains (big small : String) : Prop :=
  ∃ l r : List Char, big.data = l ++ small.data ++ r

theorem str_data_append (a b : String) : (a ++ b).data = a.data ++ b.data := by
  cases a; cases b; rfl

theorem str_empty_append (s : String) : "" ++ s = s := by
  cases s; rfl

/-- The wrap-up phrase of the final-section continuity instruction. -/
def wrapupText : String := "wrap-up and conclusion, with the HOST thanking the EXPERT."

/-- The mid-conversation phrase of the middle-section continuity instruction. -/
def mediaResText : String := "START IN MEDIA RES (mid-conversation)"

/-- C9: with `total_sections = 1` the prompt is exactly head-plus-tail with
an empty continuity instruction; with `section_num = total_sections > 1` it
contains the wrap-up/thank-you closing instruction; with
`1 < section_num < total_sections` it contains the in-media-res
mid-conversation instruction. -/
theorem build_prompt_continuity (t : String) (p : Preferences) (sn ts : Nat) :
    (continuity_instruction sn 1 = ""
      ∧ build_prompt t p sn 1 = prompt_head p ++ prompt_tail t p sn 1)
    ∧ (1 < ts → sn = ts → strContains (build_prompt t p sn ts) wrapupText)
    ∧ (1 < sn → sn < ts → strContains (build_prompt t p sn ts) mediaResText) := by
  refine ⟨⟨?_, ?_⟩, ?_, ?_⟩
  · simp [continuity_instruction]
  · rw [build_prompt]
    rw [show continuity_instruction sn 1 = "" by simp [continuity_instruction]]
    rw [str_empty_append]
  · intro hts hsn
    subst hsn
    have hci : continuity_instruction sn sn =
        "This is the final section. The conversation must **START IN MEDIA RES**. The final exchange must be a clear "
          ++ wrapupText := by
      rw [continuity_instruction, if_pos hts, if_neg (by omega), if_neg (by omega)]
      decide
    refine ⟨(prompt_head p).data
      ++ ("This is the final section. The conversation must **START IN MEDIA RES**. The final exchange must be a clear " : String).data,
      (prompt_tail t p sn sn).data, ?_⟩
    rw [build_prompt, hci]
    simp [str_data_append, List.append_assoc]
  · intro hsn hlt
    have hci : continuity_instruction sn ts =
        ("This is a middle section. The conversation must **" : String)
          ++ mediaResText
          ++ "**. The HOST should transition smoothly from the previous segment\x27s topic to introduce this new content." := by
      rw [continuity_instruction, if_pos (by omega), if_neg (by omega), if_pos hlt]
      decide
    refine ⟨(prompt_head p).data
      ++ ("This is a middle section. The conversation must **" : String).data,
      ("**. The HOST should transition smoothly from the previous segment\x27s topic to introduce this new content." : String).data
        ++ (prompt_tail t p sn ts).data, ?_⟩
    rw [build_prompt, hci]
    simp [str_data_append, List.append_assoc]

/-- Witness for C9 at concrete sections `2` of `2` and `2` of `3`. -/
theorem build_prompt_continuity_witness :
    (continuity_instruction 1 1 = ""
      ∧ build_prompt "doc" ⟨none, none, none, none⟩ 1 1 =
          prompt_head ⟨none, none, none, none⟩ ++ prompt_tail "doc" ⟨none, none, none, none⟩ 1 1)
    ∧ strContains (build_prompt "doc" ⟨none, none, none, none⟩ 2 2) wrapupText
    ∧ strContains (build_prompt "doc" ⟨none, none, none, none⟩ 2 3) mediaResText :=
  ⟨(build_prompt_continuity "doc" ⟨none, none, none, none⟩ 1 1).1,
   (build_prompt_continuity "doc" ⟨none, none, none, none⟩ 2 2).2.1 (by decide) rfl,
   (build_prompt_continuity "doc" ⟨none, none, none, none⟩ 2 3).2.2 (by decide) (by decide)⟩

/-! ## Script generator (`generate_podcast_script` /
`_create_fallback_script`, source lines 144-215) -/

/-- Outcome of the single remote Groq chat-completion call: the generated
script, a rate-limit error, or any other exception. -/
inductive RemoteResult where
  | success (script : List Char)
  | rateLimited
  | otherError
deriving DecidableEq

/-- The lines of the fixed fallback dialogue template of
`_create_fallback_script` (source lines 198-215); `text_snippet` is the
first 200 characters of the input with newlines replaced by spaces, and is
interpolated into the fourth line. -/
def fallback_lines (text : List Char) : List (List Char) :=
  let text_snippet := pyreplace (text.take 200) "\n".data " ".data
  [("HOST: Welcome everyone to today\x27s episode! We\x27re diving into some really interesting material." : String).data,
   ("EXPERT: Thank you for having me! I\x27m excited to break down these concepts for your listeners." : String).data,
   ("HOST: Let\x27s start with the basics. What\x27s the main topic we\x27re covering today?" : String).data,
   ("EXPERT: This content focuses on " : String).data ++ text_snippet
     ++ (". It\x27s a fascinating subject with practical applications." : String).data,
   ("HOST: That sounds intriguing! Can you elaborate on the key points?" : String).data,
   ("EXPERT: Absolutely. The first major concept revolves around understanding the fundamental principles and how they interconnect." : String).data,
   ("HOST: How does this apply in real-world scenarios?" : String).data,
   ("EXPERT: Great question! In practice, these ideas help us solve complex problems by providing a structured framework." : String).data,
   ("HOST: Are there any common misconceptions people have about this topic?" : String).data,
   ("EXPERT: Yes, many people initially think it\x27s more complicated than it actually is. Once you understand the core ideas, everything else falls into place." : String).data,
   ("HOST: That\x27s really helpful context. What should listeners remember most?" : String).data,
   ("EXPERT: The key takeaway is that mastering the basics opens doors to understanding the more advanced concepts. Start simple and build from there." : String).data,
   ("HOST: Excellent advice! Thank you so much for sharing your insights." : String).data,
   ("EXPERT: My pleasure! I hope this has been valuable for everyone listening." : String).data]

/-- `_create_fallback_script(text)`: the fallback template, one string
with the lines joined by newlines. -/
def create_fallback_script (text : List Char) : List Char :=
  joinWith '\n' (fallback_lines text)

/-- `generate_podcast_script` (source lines 144-196): with no client
(missing credentials) the fallback script is returned before any remote
call; otherwise the prompt is built and the remote call made, whose
rate-limit or other failure also yields the fallback script. -/
def generate_podcast_script (client : Bool) (remote : RemoteResult) (text : List Char)
    (prefs : Preferences) (section_num total_sections : Nat) : List Char :=
  if !client then create_fallback_script text
  else
    let text_sample := String.mk (pyreplace (text.take 2000) "\n".data " ".data)
    let _prompt := build_prompt text_sample prefs section_num total_sections
    match remote with
    | .success s => s
    | .rateLimited => create_fallback_script text
    | .otherError => create_fallback_script text

/-- C2 counterexample: with credentials absent the returned script has 14
newline-separated lines, not 13 as the claim states. -/
theorem generate_fallback_line_count_counterexample :
    (splitLines (generate_podcast_script false .otherError "hello world".data
      ⟨none, none, none, none⟩ 1 1)).length ≠ 13
    ∧ (splitLines (generate_podcast_script false .otherError "hello world".data
      ⟨none, none, none, none⟩ 1 1)).length = 14 := by
  constructor
  · decide
  · decide

/-- C2 (amended): with the client not initialized,
`generate_podcast_script` returns exactly the fixed fallback script for
any remote outcome and preferences: the 14-line HOST/EXPERT dialogue
template, joined by newlines, whose fourth line interpolates the first
200 characters of the input text with newlines replaced by spaces. -/
theorem generate_fallback_on_no_client (remote : RemoteResult) (text : List Char)
    (prefs : Preferences) (sn ts : Nat) :
    generate_podcast_script false remote text prefs sn ts = create_fallback_script text
    ∧ create_fallback_script text = joinWith '\n' (fallback_lines text)
    ∧ (fallback_lines text).length = 14
    ∧ (fallback_lines text).get? 3 = some (("EXPERT: This content focuses on " : String).data
        ++ pyreplace (text.take 200) "\n".data " ".data
        ++ (". It\x27s a fascinating subject with practical applications." : String).data) :=
  ⟨rfl, rfl, rfl, rfl⟩

/-! ## Dialogue parser (`parse_dialogue`, source lines 217-272) -/

/-- The two speakers of a dialogue segment. -/
inductive Speaker where
  | HOST
  | EXPERT
deriving DecidableEq

/-- A speaker-utterance pair (spec section 3, `DialogueSegment`). -/
structure DialogueSegment where
  speaker : Speaker
  text : List Char
deriving DecidableEq

/-- The `HOST:` line marker. -/
def hostMarker : List Char := ['H', 'O', 'S', 'T', ':']

/-- The `EXPERT:` line marker. -/
def expertMarker : List Char := ['E', 'X', 'P', 'E', 'R', 'T', ':']

theorem hostMarker_eq : hostMarker = ("HOST:" : String).data := by decide

theorem expertMarker_eq : expertMarker = ("EXPERT:" : String).data := by decide

/-- One iteration of the first loop of `parse_dialogue` (source lines
222-238): strip the line; skip it if empty; on a `HOST:`/`EXPERT:` line
start a new segment whose text is the line with all marker occurrences
removed and stripped, if non-empty; otherwise append the line to the last
segment when one exists. -/
def parse_raw_step (acc : List DialogueSegment) (rawLine : List Char) : List DialogueSegment :=
  let line := pystrip rawLine
  if line.isEmpty then acc
  else if startsWithL line hostMarker then
    let text := pystrip (pyreplace line hostMarker [])
    if text.isEmpty then acc else acc ++ [⟨.HOST, text⟩]
  else if startsWithL line expertMarker then
    let text := pystrip (pyreplace line expertMarker [])
    if text.isEmpty then acc else acc ++ [⟨.EXPERT, text⟩]
  else
    match acc.getLast? with
    | none => acc
    | some lastSeg => acc.dropLast ++ [⟨lastSeg.speaker, lastSeg.text ++ ' ' :: line⟩]

/-- The first pass of `parse_dialogue`: fold the step over the lines of
the stripped script. -/
def parse_raw (script : List Char) : List DialogueSegment :=
  (splitLines (pystrip script)).foldl parse_raw_step []

/-- The per-segment cleanup of `parse_dialogue` (source lines 241-252):
strip, remove markdown emphasis markers, remove parenthesized, bracketed
and angle-bracketed spans, then strip, remove literal ellipses and strip
again. -/
def clean_text (t : List Char) : List Char :=
  let t1 := pystrip t
  let t2 := pyreplace (pyreplace t1 "**".data []) "*".data []
  let t3 := pysub '(' ')' t2
  let t4 := pysub '[' ']' t3
  let t5 := pysub '<' '>' t4
  pystrip (pyreplace (pystrip t5) "...".data [])

/-- The fixed two-segment placeholder returned when cleaning leaves no
segments (source lines 265-270). -/
def placeholder_dialogue : List DialogueSegment :=
  [⟨.HOST, ("Welcome to this podcast episode about your document." : String).data⟩,
   ⟨.EXPERT, ("Thank you for having me. Let me share the key insights from this material." : String).data⟩]

/-- `parse_dialogue(script)` (source lines 217-272): raw pass, per-segment
cleanup keeping only segments whose cleaned text exceeds 5 characters,
and the placeholder fallback when nothing is kept. -/
def parse_dialogue (script : List Char) : List DialogueSegment :=
  let cleaned := (parse_raw script).filterMap (fun e =>
    let t := clean_text e.text
    if 5 < t.length then some (⟨e.speaker, t⟩ : DialogueSegment) else none)
  if cleaned.isEmpty then placeholder_dialogue else cleaned

/-- C3 counterexample: the spec example script does not parse to the two
claimed segments. -/
theorem parse_dialogue_example_counterexample :
    parse_dialogue ("HOST: Hello (laughs)\nEXPERT: [pause] Hi there" : String).data
      ≠ [⟨.HOST, ("Hello" : String).data⟩, ⟨.EXPERT, ("Hi there" : String).data⟩] := by
  decide

/-- C3 (amended): the spec example script parses to the single segment
`{EXPERT, "Hi there"}`: the stage directions are fully removed, but the
HOST segment's cleaned text `"Hello"` has length 5, which does not exceed
the more-than-5-characters threshold, so it is discarded as noise. -/
theorem parse_dialogue_example :
    parse_dialogue ("HOST: Hello (laughs)\nEXPERT: [pause] Hi there" : String).data
      = [⟨.EXPERT, ("Hi there" : String).data⟩]
    ∧ clean_text ("Hello (laughs)" : String).data = ("Hello" : String).data
    ∧ (("Hello" : String).data.length > 5) = False := by
  refine ⟨by decide, by decide, by decide⟩

theorem startsWithL_isEmpty_false (l : List Char) (p : Char) (ps : List Char)
    (h : startsWithL l (p :: ps) = true) : l.isEmpty = false := by
  cases l with
  | nil => simp [startsWithL] at h
  | cons c cs => rfl

theorem startsWithL_expert_not_host (l : List Char)
    (h : startsWithL l expertMarker = true) : startsWithL l hostMarker = false := by
  cases l with
  | nil => simp [expertMarker, startsWithL] at h
  | cons c cs =>
    simp only [expertMarker, startsWithL, Bool.and_eq_true, beq_iff_eq] at h
    obtain ⟨rfl, -⟩ := h
    simp [hostMarker, startsWithL]

/-- C5 counterexample: on the line `HOST: Ask the HOST: now` the new
segment's text is not the unchanged remainder after the prefix — every
occurrence of the marker is removed and the result stripped. -/
theorem parse_marker_removal_counterexample :
    parse_dialogue ("HOST: Ask the HOST: now" : String).data
      ≠ [⟨.HOST, ("Ask the HOST: now" : String).data⟩]
    ∧ parse_dialogue ("HOST: Ask the HOST: now" : String).data
      = [⟨.HOST, ("Ask the  now" : String).data⟩] := by
  refine ⟨by decide, by decide⟩

/-- C5 (amended): a stripped script line beginning with `HOST:` or
`EXPERT:` starts a new segment for that speaker whose pre-cleaning text
is the line with every occurrence of that marker removed and surrounding
whitespace stripped, provided that text is non-empty. -/
theorem parse_step_speaker_line (acc : List DialogueSegment) (line : List Char) :
    (startsWithL (pystrip line) hostMarker = true →
      pystrip (pyreplace (pystrip line) hostMarker []) ≠ [] →
      parse_raw_step acc line
        = acc ++ [⟨.HOST, pystrip (pyreplace (pystrip line) hostMarker [])⟩])
    ∧ (startsWithL (pystrip line) expertMarker = true →
      pystrip (pyreplace (pystrip line) expertMarker []) ≠ [] →
      parse_raw_step acc line
        = acc ++ [⟨.EXPERT, pystrip (pyreplace (pystrip line) expertMarker [])⟩]) := by
  constructor
  · intro h h2
    have hne : (pystrip line).isEmpty = false :=
      startsWithL_isEmpty_false (pystrip line) 'H' ['O', 'S', 'T', ':']
        (by simpa [hostMarker] using h)
    have hte : (pystrip (pyreplace (pystrip line) hostMarker [])).isEmpty = false := by
      simp [List.isEmpty_iff, h2]
    simp [parse_raw_step, hne, h, hte]
  · intro h h2
    have hne : (pystrip line).isEmpty = false :=
      startsWithL_isEmpty_false (pystrip line) 'E' ['X', 'P', 'E', 'R', 'T', ':']
        (by simpa [expertMarker] using h)
    have hnh : startsWithL (pystrip line) hostMarker = false :=
      startsWithL_expert_not_host _ h
    have hte : (pystrip (pyreplace (pystrip line) expertMarker [])).isEmpty = false := by
      simp [List.isEmpty_iff, h2]
    simp [parse_raw_step, hne, h, hnh, hte]

/-- Witness for C5 at the concrete line `HOST: Ask me anything`. -/
theorem parse_step_speaker_line_witness :
    parse_raw_step [] ("HOST: Ask me anything" : String).data
      = [] ++ [⟨.HOST, pystrip (pyreplace (pystrip ("HOST: Ask me anything" : String).data) hostMarker [])⟩] :=
  (parse_step_speaker_line [] ("HOST: Ask me anything" : String).data).1 (by decide) (by decide)

/-! ## Speech synthesizer (`synthesize_speech`, source lines 274-328) -/

/-- Outcome of one Edge-TTS synthesis call (`asyncio.run(generate_audio ...)`):
either the call raises, or it writes a file with the given bytes. -/
inductive SynthOutcome where
  | raises
  | writes (bytes : List Nat)
deriving DecidableEq

/-- An attempt fails when the call raised or the produced file does not
exceed 1000 bytes (source line 311). -/
def SynthOutcome.failed : SynthOutcome → Bool
  | .raises => true
  | .writes b => if 1000 < b.length then false else true

/-- The speaker tag as a string (`voices` keys / filename tag). -/
def Speaker.tag : Speaker → String
  | .HOST => "HOST"
  | .EXPERT => "EXPERT"

/-- Python `f"{idx:03d}"`. -/
def pad3 (n : Nat) : String :=
  if n < 10 then "00" ++ toString n
  else if n < 100 then "0" ++ toString n
  else toString n

/-- `f"{output_dir}/segment_{idx:03d}_{speaker}.mp3"` (source line 307). -/
def seg_filename (dir : String) (idx : Nat) (sp : Speaker) : String :=
  dir ++ "/segment_" ++ pad3 idx ++ "_" ++ sp.tag ++ ".mp3"

/-- The per-segment retry loop of `synthesize_speech` (source lines
294-325): skip segments whose text is empty or strips to fewer than 3
characters; otherwise attempt synthesis up to 2 times, accepting a file
larger than 1000 bytes; a segment failing both attempts contributes no
clip.  The oracle gives the outcome of the call for (segment index,
attempt index). -/
def synth_segment (oracle : Nat → Nat → SynthOutcome) (dir : String)
    (idx : Nat) (seg : DialogueSegment) : Option String :=
  if seg.text.isEmpty || (pystrip seg.text).length < 3 then none
  else
    let filename := seg_filename dir idx seg.speaker
    match oracle idx 0 with
    | .writes b =>
      if 1000 < b.length then some filename
      else
        match oracle idx 1 with
        | .writes b2 => if 1000 < b2.length then some filename else none
        | .raises => none
    | .raises =>
      match oracle idx 1 with
      | .writes b2 => if 1000 < b2.length then some filename else none
      | .raises => none

/-- `synthesize_speech(dialogue, output_dir)`: each segment, in order,
contributes at most one clip filename (Python appends then breaks). -/
def synthesize_speech (dialogue : List DialogueSegment)
    (oracle : Nat → Nat → SynthOutcome) (dir : String) : List String :=
  dialogue.enum.filterMap (fun p => synth_segment oracle dir p.1 p.2)

/-- The synthesis calls actually issued for one segment: none when the
segment is skipped; one call when the first attempt succeeds; both calls
otherwise. -/
def synth_segment_calls (oracle : Nat → Nat → SynthOutcome)
    (idx : Nat) (seg : DialogueSegment) : List SynthOutcome :=
  if seg.text.isEmpty || (pystrip seg.text).length < 3 then []
  else
    match oracle idx 0 with
    | .writes b => if 1000 < b.length then [.writes b] else [.writes b, oracle idx 1]
    | .raises => [.raises, oracle idx 1]

/-- All synthesis calls issued over a dialogue, in order. -/
def synthesize_calls (dialogue : List DialogueSegment)
    (oracle : Nat → Nat → SynthOutcome) : List SynthOutcome :=
  (dialogue.enum.map (fun p => synth_segment_calls oracle p.1 p.2)).flatten

theorem synth_segment_none_of_failed (oracle : Nat → Nat → SynthOutcome)
    (dir : String) (idx : Nat) (seg : DialogueSegment)
    (h0 : (oracle idx 0).failed = true) (h1 : (oracle idx 1).failed = true) :
    synth_segment oracle dir idx seg = none := by
  rw [synth_segment]
  split
  · rfl
  · cases ho0 : oracle idx 0 with
    | raises =>
      cases ho1 : oracle idx 1 with
      | raises => rfl
      | writes b2 =>
        rw [ho1] at h1
        simp only [SynthOutcome.failed] at h1
        split at h1
        · simp at h1
        · rename_i hgt
          simp [hgt]
    | writes b =>
      rw [ho0] at h0
      simp only [SynthOutcome.failed] at h0
      split at h0
      · simp at h0
      · rename_i hgt
        simp only [if_neg hgt]
        cases ho1 : oracle idx 1 with
        | raises => rfl
        | writes b2 =>
          rw [ho1] at h1
          simp only [SynthOutcome.failed] at h1
          split at h1
          · simp at h1
          · rename_i hgt2
            simp [hgt2]

/-- C8 counterexample: a 1-segment dialogue with exactly one failing
synthesis call (the first attempt raises, the retry succeeds) yields one
returned clip, not zero. -/
theorem synthesize_retry_counterexample :
    ((synthesize_calls [⟨.HOST, ("Hello there" : String).data⟩]
        (fun _ a => if a = 0 then .raises else .writes (List.replicate 1500 0))).filter
          SynthOutcome.failed).length = 1
    ∧ (synthesize_speech [⟨.HOST, ("Hello there" : String).data⟩]
        (fun _ a => if a = 0 then .raises else .writes (List.replicate 1500 0))
        "podcast_output").length = 1 := by
  refine ⟨by decide, by decide⟩

/-- C8 (amended): a segment both of whose two synthesis attempts fail
(raise, or produce a file of at most 1000 bytes) is excluded from the
returned clip sequence — its per-segment result is `none` — and a
1-segment dialogue whose both attempts fail yields zero returned clips
rather than an error (the model is a total function). -/
theorem synthesize_drops_failed_segment (oracle : Nat → Nat → SynthOutcome)
    (dir : String) (idx : Nat) (seg d : DialogueSegment)
    (h0 : (oracle idx 0).failed = true) (h1 : (oracle idx 1).failed = true)
    (g0 : (oracle 0 0).failed = true) (g1 : (oracle 0 1).failed = true) :
    synth_segment oracle dir idx seg = none
    ∧ synthesize_speech [d] oracle dir = [] := by
  refine ⟨synth_segment_none_of_failed oracle dir idx seg h0 h1, ?_⟩
  simp only [synthesize_speech, List.enum]
  simp [List.filterMap, synth_segment_none_of_failed oracle dir 0 d g0 g1]

/-- Witness for C8 at a concrete always-raising oracle. -/
theorem synthesize_drops_failed_segment_witness :
    synth_segment (fun _ _ => SynthOutcome.raises) "podcast_output" 0
      ⟨.HOST, ("Hello there" : String).data⟩ = none
    ∧ synthesize_speech [⟨.HOST, ("Hello there" : String).data⟩]
        (fun _ _ => SynthOutcome.raises) "podcast_output" = [] :=
  synthesize_drops_failed_segment (fun _ _ => SynthOutcome.raises) "podcast_output" 0
    ⟨.HOST, ("Hello there" : String).data⟩ ⟨.HOST, ("Hello there" : String).data⟩
    rfl rfl rfl rfl

/-! ## File-system model and audio assembler (`combine_audio_files` /
`_fallback_combine`, source lines 330-411) -/

/-- A flat file system: file names mapped to byte contents (directories
are not modelled; creation of the output directory is an environmental
effect outside the claims). -/
abbrev FS := List (String × List Nat)

/-- Read a file's bytes, `none` when the file does not exist. -/
def fsRead : FS → String → Option (List Nat)
  | [], _ => none
  | (n, c) :: rest, name => if n = name then some c else fsRead rest name

/-- Delete a file (`os.remove`). -/
def fsRemove : FS → String → FS
  | [], _ => []
  | (n, c) :: rest, name =>
    if n = name then fsRemove rest name else (n, c) :: fsRemove rest name

/-- Create or overwrite a file (`open(..., 'w')` and writes). -/
def fsWrite (fs : FS) (name : String) (content : List Nat) : FS :=
  (name, content) :: fsRemove fs name

/-- `os.path.exists`. -/
def fsHas (fs : FS) (name : String) : Bool := (fsRead fs name).isSome

theorem fsRead_remove_ne (fs : FS) (n m : String) (h : m ≠ n) :
    fsRead (fsRemove fs n) m = fsRead fs m := by
  induction fs with
  | nil => rfl
  | cons p rest ih =>
    obtain ⟨pn, pc⟩ := p
    by_cases hp : pn = n
    · subst hp
      rw [fsRemove, if_pos rfl, ih, fsRead, if_neg (fun hh => h hh.symm)]
    · rw [fsRemove, if_neg hp, fsRead, fsRead]
      by_cases hm : pn = m
      · rw [if_pos hm, if_pos hm]
      · rw [if_neg hm, if_neg hm, ih]

theorem fsRead_write_self (fs : FS) (n : String) (c : List Nat) :
    fsRead (fsWrite fs n c) n = some c := by
  simp [fsWrite, fsRead]

theorem fsRead_write_ne (fs : FS) (n m : String) (c : List Nat) (h : m ≠ n) :
    fsRead (fsWrite fs n c) m = fsRead fs m := by
  rw [fsWrite, fsRead, if_neg (fun hh => h hh.symm)]
  exact fsRead_remove_ne fs n m h

theorem fsRead_remove_self (fs : FS) (n : String) :
    fsRead (fsRemove fs n) n = none := by
  induction fs with
  | nil => rfl
  | cons p rest ih =>
    obtain ⟨pn, pc⟩ := p
    by_cases hp : pn = n
    · simp [fsRemove, hp, ih]
    · simp [fsRemove, hp, fsRead, ih]

/-- Python `str.replace` on `String`s. -/
def strReplace (s pat rep : String) : String :=
  String.mk (pyreplace s.data pat.data rep.data)

/-- Outcome of the ffmpeg invocation (`subprocess.run` with a 60s
timeout): the process exited with a return code, having written the
output file or not, or the invocation timed out. -/
inductive ToolOutcome where
  | exited (returncode : Int) (written : Option (List Nat))
  | timedOut
deriving DecidableEq

/-- `output_path.replace('.mp3', '_filelist.txt')` (source line 342). -/
def manifest_name (output_path : String) : String :=
  strReplace output_path ".mp3" "_filelist.txt"

/-- The bytes of the manifest file: one `file '<path>'` line per clip
(source lines 344-347; `os.path.abspath` is modelled as the identity,
paths in the model being already canonical). -/
def manifest_content (files : List String) : List Nat :=
  ((files.map (fun f => ("file \x27" ++ f ++ "\x27\n" : String).data)).flatten).map Char.toNat

/-- The clip-appending loop of `_fallback_combine` (source lines 393-397):
read each clip in order and append its bytes to the output file; stop
with failure if a clip cannot be read (the `IOError` branch). -/
def append_clips : FS → String → List String → FS × Bool
  | fs, _, [] => (fs, true)
  | fs, out, f :: rest =>
    match fsRead fs f with
    | none => (fs, false)
    | some bytes => append_clips (fsWrite fs out ((fsRead fs out).getD [] ++ bytes)) out rest

/-- `_fallback_combine(audio_files, output_path)` (source lines 388-411):
truncate the output file, append every clip's raw bytes in order; on a
read failure fall back to copying the first clip; return `none` only when
even that clip is missing. -/
def fallback_combine (fs : FS) (audio_files : List String) (output_path : String) :
    Option String × FS :=
  let fs1 := fsWrite fs output_path []
  match append_clips fs1 output_path audio_files with
  | (fs2, true) => (some output_path, fs2)
  | (fs2, false) =>
    match audio_files with
    | [] => (none, fs2)
    | f :: _ =>
      match fsRead fs2 f with
      | some bytes => (some output_path, fsWrite fs2 output_path bytes)
      | none => (none, fs2)

/-- `combine_audio_files(audio_files, output_path)` (source lines
330-386): `none` on an empty clip list; otherwise write the manifest,
invoke ffmpeg, and on an exit (of either status) delete the manifest and
return the output on success, falling back to raw concatenation
otherwise; on a timeout the exception handler skips the manifest
deletion and falls back directly. -/
def combine_audio_files (fs : FS) (audio_files : List String) (output_path : String)
    (tool : ToolOutcome) : Option String × FS :=
  if audio_files.isEmpty then (none, fs)
  else
    let list_file := manifest_name output_path
    let fs1 := fsWrite fs list_file (manifest_content audio_files)
    match tool with
    | .timedOut => fallback_combine fs1 audio_files output_path
    | .exited rc written =>
      let fs2 := match written with
        | some bytes => fsWrite fs1 output_path bytes
        | none => fs1
      let fs3 := fsRemove fs2 list_file
      if rc == 0 && fsHas fs3 output_path then (some output_path, fs3)
      else fallback_combine fs3 audio_files output_path

theorem ne_of_not_mem_str (l : List String) (out g : String)
    (hout : out ∉ l) (hg : g ∈ l) : g ≠ out := by
  intro h
  subst h
  exact hout hg

theorem append_clips_preserves (files : List String) :
    ∀ (fs : FS) (out g : String), g ≠ out →
      fsRead (append_clips fs out files).1 g = fsRead fs g := by
  induction files with
  | nil => intro fs out g hg; rfl
  | cons f rest ih =>
    intro fs out g hg
    rw [append_clips]
    cases hb : fsRead fs f with
    | none => rfl
    | some b =>
      rw [ih _ _ _ hg, fsRead_write_ne _ _ _ _ hg]

theorem append_clips_ok (files : List String) :
    ∀ (fs : FS) (out : String) (cur : List Nat),
      out ∉ files → (∀ f ∈ files, (fsRead fs f).isSome) → fsRead fs out = some cur →
      ∃ fs', append_clips fs out files = (fs', true)
        ∧ fsRead fs' out = some (cur ++ (files.map (fun f => (fsRead fs f).getD [])).flatten)
        ∧ ∀ g, g ≠ out → fsRead fs' g = fsRead fs g := by
  induction files with
  | nil =>
    intro fs out cur hout hread hcur
    exact ⟨fs, rfl, by simpa using hcur, fun g hg => rfl⟩
  | cons f rest ih =>
    intro fs out cur hout hread hcur
    obtain ⟨b, hb⟩ := Option.isSome_iff_exists.1 (hread f (by simp))
    have hrest : out ∉ rest := fun h => hout (by simp [h])
    have hstep : append_clips fs out (f :: rest)
        = append_clips (fsWrite fs out (cur ++ b)) out rest := by
      rw [append_clips, hb, hcur]
      rfl
    obtain ⟨fs', h1, h2, h3⟩ := ih (fsWrite fs out (cur ++ b)) out (cur ++ b)
      hrest
      (fun g hg => by
        rw [fsRead_write_ne _ _ _ _ (ne_of_not_mem_str rest out g hrest hg)]
        exact hread g (by simp [hg]))
      (fsRead_write_self fs out (cur ++ b))
    refine ⟨fs', by rw [hstep, h1], ?_, ?_⟩
    · rw [h2]
      have hmap : rest.map (fun g => (fsRead (fsWrite fs out (cur ++ b)) g).getD [])
          = rest.map (fun g => (fsRead fs g).getD []) := by
        refine List.map_congr_left (fun g hg => ?_)
        rw [fsRead_write_ne _ _ _ _ (ne_of_not_mem_str rest out g hrest hg)]
      rw [hmap]
      simp [hb, List.append_assoc]
    · intro g hg
      rw [h3 g hg, fsRead_write_ne _ _ _ _ hg]

theorem fallback_combine_preserves (fs : FS) (files : List String) (out g : String)
    (hg : g ≠ out) :
    fsRead (fallback_combine fs files out).2 g = fsRead fs g := by
  have h := append_clips_preserves files (fsWrite fs out []) out g hg
  rw [fsRead_write_ne _ _ _ _ hg] at h
  rw [fallback_combine]
  split
  · rename_i fs2 heq
    rw [heq] at h
    exact h
  · rename_i fs2 heq
    rw [heq] at h
    split
    · exact h
    · split
      · rw [fsRead_write_ne _ _ _ _ hg]
        exact h
      · exact h

theorem fallback_combine_spec (fs : FS) (files : List String) (out : String)
    (hout : out ∉ files) (hread : ∀ f ∈ files, (fsRead fs f).isSome) :
    (fallback_combine fs files out).1 = some out
    ∧ fsRead (fallback_combine fs files out).2 out
        = some ((files.map (fun f => (fsRead fs f).getD [])).flatten) := by
  obtain ⟨fs', h1, h2, h3⟩ := append_clips_ok files (fsWrite fs out []) out []
    hout
    (fun f hf => by
      rw [fsRead_write_ne _ _ _ _ (ne_of_not_mem_str files out f hout hf)]
      exact hread f hf)
    (fsRead_write_self fs out [])
  have hmap : files.map (fun f => (fsRead (fsWrite fs out []) f).getD [])
      = files.map (fun f => (fsRead fs f).getD []) := by
    refine List.map_congr_left (fun f hf => ?_)
    rw [fsRead_write_ne _ _ _ _ (ne_of_not_mem_str files out f hout hf)]
  rw [fallback_combine, h1]
  exact ⟨rfl, by rw [h2, hmap]; simp⟩

/-- C4 counterexample: on a timeout of the concatenation tool the
manifest file is still present when `combine_audio_files` returns — the
deletion is skipped because the timeout exception is raised before it. -/
theorem combine_manifest_timeout_counterexample :
    fsHas (combine_audio_files [("a.mp3", List.replicate 1200 1)] ["a.mp3"]
      "final_podcast.mp3" .timedOut).2 (manifest_name "final_podcast.mp3") = true
    ∧ manifest_name "final_podcast.mp3" = "final_podcast_filelist.txt" := by
  refine ⟨by decide, by decide⟩

/-- C4 (amended): for a non-empty clip list the manifest is deleted
before return on every *exit* of the tool (successful, failing, or with
a missing output file), but on a *timeout* the function returns with the
manifest still present. -/
theorem combine_manifest_cleanup (fs : FS) (files : List String) (out : String)
    (rc : Int) (w : Option (List Nat)) (hne : files ≠ [])
    (hmo : manifest_name out ≠ out) :
    fsHas (combine_audio_files fs files out (.exited rc w)).2 (manifest_name out) = false
    ∧ fsHas (combine_audio_files fs files out .timedOut).2 (manifest_name out) = true := by
  have hnilF : ¬ (files.isEmpty = true) := by
    cases files with
    | nil => exact absurd rfl hne
    | cons a l => simp
  constructor
  · rw [combine_audio_files, if_neg hnilF]
    cases w with
    | none =>
      dsimp only
      split
      · simp only [fsHas, fsRead_remove_self]
        rfl
      · simp only [fsHas]
        rw [fallback_combine_preserves _ _ _ _ hmo, fsRead_remove_self]
        rfl
    | some bytes =>
      dsimp only
      split
      · simp only [fsHas, fsRead_remove_self]
        rfl
      · simp only [fsHas]
        rw [fallback_combine_preserves _ _ _ _ hmo, fsRead_remove_self]
        rfl
  · rw [combine_audio_files, if_neg hnilF]
    dsimp only
    simp only [fsHas]
    rw [fallback_combine_preserves _ _ _ _ hmo, fsRead_write_self]
    rfl

/-- Witness for C4 at a one-clip list and output `final_podcast.mp3`. -/
theorem combine_manifest_cleanup_witness :
    fsHas (combine_audio_files [("a.mp3", List.replicate 1200 1)] ["a.mp3"]
      "final_podcast.mp3" (.exited 1 none)).2 (manifest_name "final_podcast.mp3") = false
    ∧ fsHas (combine_audio_files [("a.mp3", List.replicate 1200 1)] ["a.mp3"]
      "final_podcast.mp3" .timedOut).2 (manifest_name "final_podcast.mp3") = true :=
  combine_manifest_cleanup [("a.mp3", List.replicate 1200 1)] ["a.mp3"]
    "final_podcast.mp3" 1 none (by decide) (by decide)

/-- C6: with no clips `combine_audio_files` returns `none` and leaves the
file system unchanged; with a non-empty list of readable clips (distinct
from the output and manifest paths) and a failing tool (timeout or
non-zero exit), it returns the output path and the produced file's byte
length is the sum of the input clips' byte lengths. -/
theorem combine_audio_files_spec (fs : FS) (files : List String) (out : String)
    (tool : ToolOutcome) (hne : files ≠ []) (hout : out ∉ files)
    (hman : manifest_name out ∉ files)
    (hread : ∀ f ∈ files, (fsRead fs f).isSome)
    (hfail : tool = .timedOut ∨ ∃ rc w, tool = .exited rc w ∧ rc ≠ 0) :
    (∀ (fs0 : FS) (out0 : String) (tool0 : ToolOutcome),
        combine_audio_files fs0 [] out0 tool0 = (none, fs0))
    ∧ (combine_audio_files fs files out tool).1 = some out
    ∧ ∃ bytes, fsRead (combine_audio_files fs files out tool).2 out = some bytes
        ∧ bytes.length = (files.map (fun f => ((fsRead fs f).getD []).length)).sum := by
  have hnilF : ¬ (files.isEmpty = true) := by
    cases files with
    | nil => exact absurd rfl hne
    | cons a l => simp
  have key : ∀ fsX : FS, (∀ f ∈ files, fsRead fsX f = fsRead fs f) →
      (fallback_combine fsX files out).1 = some out
      ∧ ∃ bytes, fsRead (fallback_combine fsX files out).2 out = some bytes
          ∧ bytes.length = (files.map (fun f => ((fsRead fs f).getD []).length)).sum := by
    intro fsX hpres
    obtain ⟨k1, k2⟩ := fallback_combine_spec fsX files out hout
      (fun f hf => by rw [hpres f hf]; exact hread f hf)
    refine ⟨k1, (files.map (fun f => (fsRead fs f).getD [])).flatten, ?_, ?_⟩
    · rw [k2]
      have hmap : files.map (fun f => (fsRead fsX f).getD [])
          = files.map (fun f => (fsRead fs f).getD []) :=
        List.map_congr_left (fun f hf => by rw [hpres f hf])
      rw [hmap]
    · rw [List.length_flatten, List.map_map]
      rfl
  refine ⟨fun fs0 out0 tool0 => rfl, ?_⟩
  rcases hfail with rfl | ⟨rc, w, rfl, hrc⟩
  · rw [combine_audio_files, if_neg hnilF]
    dsimp only
    exact key (fsWrite fs (manifest_name out) (manifest_content files))
      (fun f hf => fsRead_write_ne _ _ _ _
        (ne_of_not_mem_str files (manifest_name out) f hman hf))
  · rw [combine_audio_files, if_neg hnilF]
    have hbeq : (rc == 0) = false := by
      simpa using hrc
    cases w with
    | none =>
      dsimp only
      rw [hbeq, Bool.false_and, if_neg (by simp)]
      exact key (fsRemove (fsWrite fs (manifest_name out) (manifest_content files))
          (manifest_name out))
        (fun f hf => by
          rw [fsRead_remove_ne _ _ _ (ne_of_not_mem_str files (manifest_name out) f hman hf),
            fsRead_write_ne _ _ _ _ (ne_of_not_mem_str files (manifest_name out) f hman hf)])
    | some bytes =>
      dsimp only
      rw [hbeq, Bool.false_and, if_neg (by simp)]
      exact key (fsRemove (fsWrite (fsWrite fs (manifest_name out) (manifest_content files))
          out bytes) (manifest_name out))
        (fun f hf => by
          rw [fsRead_remove_ne _ _ _ (ne_of_not_mem_str files (manifest_name out) f hman hf),
            fsRead_write_ne _ _ _ _ (ne_of_not_mem_str files out f hout hf),
            fsRead_write_ne _ _ _ _ (ne_of_not_mem_str files (manifest_name out) f hman hf)])

/-- Witness for C6 at two concrete readable clips and a non-zero tool
exit. -/
theorem combine_audio_files_spec_witness :
    (∀ (fs0 : FS) (out0 : String) (tool0 : ToolOutcome),
        combine_audio_files fs0 [] out0 tool0 = (none, fs0))
    ∧ (combine_audio_files [("a.mp3", List.replicate 1100 7), ("b.mp3", List.replicate 1200 8)]
        ["a.mp3", "b.mp3"] "final_podcast.mp3" (.exited 1 none)).1 = some "final_podcast.mp3"
    ∧ ∃ bytes, fsRead (combine_audio_files
          [("a.mp3", List.replicate 1100 7), ("b.mp3", List.replicate 1200 8)]
          ["a.mp3", "b.mp3"] "final_podcast.mp3" (.exited 1 none)).2 "final_podcast.mp3"
        = some bytes
      ∧ bytes.length = ((["a.mp3", "b.mp3"] : List String).map (fun f =>
          ((fsRead [("a.mp3", List.replicate 1100 7), ("b.mp3", List.replicate 1200 8)] f).getD []).length)).sum :=
  combine_audio_files_spec
    [("a.mp3", List.replicate 1100 7), ("b.mp3", List.replicate 1200 8)]
    ["a.mp3", "b.mp3"] "final_podcast.mp3" (.exited 1 none)
    (by decide) (by decide) (by decide) (by decide)
    (Or.inr ⟨1, none, rfl, by decide⟩)

/-! ## Pipeline orchestrator (`convert_pdf_to_podcast`, source lines
413-482) -/

/-- File-system effect of the synthesis attempts for one segment: every
call that writes leaves the (possibly small) file on disk; the same
filename is overwritten by the retry. -/
def synth_seg_fs (fs : FS) (oracle : Nat → Nat → SynthOutcome) (dir : String)
    (idx : Nat) (seg : DialogueSegment) : FS :=
  if seg.text.isEmpty || (pystrip seg.text).length < 3 then fs
  else
    let fn := seg_filename dir idx seg.speaker
    match oracle idx 0 with
    | .writes b =>
      if 1000 < b.length then fsWrite fs fn b
      else
        match oracle idx 1 with
        | .writes b2 => fsWrite (fsWrite fs fn b) fn b2
        | .raises => fsWrite fs fn b
    | .raises =>
      match oracle idx 1 with
      | .writes b2 => fsWrite fs fn b2
      | .raises => fs

/-- File-system effect of `synthesize_speech` over a whole dialogue. -/
def synthesize_fs (fs : FS) (dialogue : List DialogueSegment)
    (oracle : Nat → Nat → SynthOutcome) (dir : String) : FS :=
  dialogue.enum.foldl (fun acc p => synth_seg_fs acc oracle dir p.1 p.2) fs

/-- `os.path.dirname` for `/`-separated paths (without the POSIX
root-slash special cases, which the converter never exercises). -/
def dirname (p : String) : String :=
  match p.data.reverse.findIdx? (fun c => c = '/') with
  | none => ""
  | some i => String.mk (p.data.take (p.data.length - i - 1))

/-- The record returned by `convert_pdf_to_podcast` (spec section 3,
`ConversionResult`). -/
structure ConversionResult where
  output_path : Option String
  transcript : List DialogueSegment
deriving DecidableEq

/-- `convert_pdf_to_podcast` (source lines 413-482).  `pdf_text` is the
text extracted from the document by the external library; `client` is
whether the generation client was initialized; `remote` gives the remote
generation outcome per section; `oracle` the synthesis outcome per
(segment, attempt); `tool` the ffmpeg outcome.  The persisted transcript
JSON side artifact is an effect no claim observes and is not modelled. -/
def convert_pdf_to_podcast (pdf_text : List Char) (output_path : String)
    (max_pages : Option Nat) (prefs : Preferences) (client : Bool)
    (remote : Nat → RemoteResult) (oracle : Nat → Nat → SynthOutcome)
    (fs : FS) (tool : ToolOutcome) : ConversionResult :=
  let text := match max_pages with
    | some mp => if mp = 0 then pdf_text else pdf_text.take (mp * 3000)
    | none => pdf_text
  let chunk_size := match prefs.length with
    | some .short => 2000
    | some .medium => 3000
    | some .long => 4000
    | none => 3000
  let chunks := chunk_text text chunk_size
  let max_chunks := match prefs.length with
    | some .short => 1
    | _ => 2
  let chunks := chunks.take max_chunks
  let total_chunks := chunks.length
  let all_dialogue := (chunks.enum.map (fun p =>
    parse_dialogue (generate_podcast_script client (remote p.1) p.2 prefs
      (p.1 + 1) total_chunks))).flatten
  let output_dir := if (dirname output_path).isEmpty then "." else dirname output_path
  let audio_files := synthesize_speech all_dialogue oracle output_dir
  let fs1 := synthesize_fs fs all_dialogue oracle output_dir
  let final_path := (combine_audio_files fs1 audio_files output_path tool).1
  ⟨final_path, all_dialogue⟩

/-- C1 counterexample: a document from which no readable text is
extracted makes `convert_pdf_to_podcast` complete normally with a null
audio path and empty transcript — no explicit failure is surfaced (the
embedding is a total function: no code path on these inputs raises). -/
theorem convert_no_text_counterexample :
    convert_pdf_to_podcast [] "podcast.mp3" none ⟨none, none, none, none⟩ false
      (fun _ => .otherError) (fun _ _ => .raises) [] (.exited 0 none)
      = ⟨none, []⟩ := by
  decide

/-- C1 (amended): the two "fatal" conditions do not propagate: with no
readable extracted text the orchestrator returns the normal record
`{output_path := none, transcript := []}`, and with every synthesis
attempt failing it returns normally with a null output path (and the
transcript intact), instead of surfacing an explicit failure. -/
theorem convert_no_fatal_failure (output_path : String) (mp : Option Nat)
    (prefs : Preferences) (client : Bool) (remote : Nat → RemoteResult)
    (oracle : Nat → Nat → SynthOutcome) (fs : FS) (tool : ToolOutcome)
    (hfail : ∀ i a, (oracle i a).failed = true) :
    convert_pdf_to_podcast [] output_path mp prefs client remote oracle fs tool
      = ⟨none, []⟩
    ∧ ∀ text, (convert_pdf_to_podcast text output_path mp prefs client remote
        oracle fs tool).output_path = none := by
  have haudio : ∀ (d : List DialogueSegment) (dir : String),
      synthesize_speech d oracle dir = [] := by
    intro d dir
    rw [synthesize_speech, List.filterMap_eq_nil_iff]
    intro p hp
    exact synth_segment_none_of_failed oracle dir p.1 p.2 (hfail p.1 0) (hfail p.1 1)
  constructor
  · cases mp with
    | none =>
      simp [convert_pdf_to_podcast, chunk_text, pysplit, pysplitAux, chunk_loop,
        List.take_nil, synthesize_speech, synthesize_fs, combine_audio_files]
    | some k =>
      simp [convert_pdf_to_podcast, chunk_text, pysplit, pysplitAux, chunk_loop,
        List.take_nil, synthesize_speech, synthesize_fs, combine_audio_files]
  · intro text
    simp only [convert_pdf_to_podcast, haudio, combine_audio_files]
    simp

/-- Witness for C1 at an always-raising synthesis oracle. -/
theorem convert_no_fatal_failure_witness :
    (∀ (i a : Nat), ((fun (_ : Nat) (_ : Nat) => SynthOutcome.raises) i a).failed = true)
    ∧ convert_pdf_to_podcast [] "podcast.mp3" none ⟨none, none, none, none⟩ true
        (fun _ => .otherError) (fun _ _ => SynthOutcome.raises) [] .timedOut = ⟨none, []⟩
    ∧ ∀ text, (convert_pdf_to_podcast text "podcast.mp3" none ⟨none, none, none, none⟩ true
        (fun _ => .otherError) (fun _ _ => SynthOutcome.raises) [] .timedOut).output_path
          = none :=
  ⟨fun _ _ => rfl,
   (convert_no_fatal_failure "podcast.mp3" none ⟨none, none, none, none⟩ true
      (fun _ => .otherError) (fun _ _ => SynthOutcome.raises) [] .timedOut
      (fun _ _ => rfl)).1,
   (convert_no_fatal_failure "podcast.mp3" none ⟨none, none, none, none⟩ true
      (fun _ => .otherError) (fun _ _ => SynthOutcome.raises) [] .timedOut
      (fun _ _ => rfl)).2⟩
